/-
Verification of the ml-audit-platform repository against its specification.

Shallow embedding of the Python sources:
  * src/app.py                 - FastAPI prediction service (predict, batch_predict)
  * src/train_model.py         - offline preprocessing (preprocess_data)
  * src/audit_dependencies.py  - dependency audit driver (check_outdated, create_audit_report)
  * src/generate_audit_report.py - vulnerability merging (merge_vulnerabilities)

Modelling conventions:
  * Python floats are modelled as rationals (ℚ); binary floating point rounding is
    not relevant to any property checked here.
  * Python exceptions are an explicit error value (PyErr); `try ... except Exception`
    becomes a match on an Except result.  FastAPI's HTTPException inherits from
    Exception, so it IS caught by a blanket `except Exception` clause; the embedding
    reflects this.  str(HTTPException) renders as "<status>: <detail>" (starlette).
  * The scaler / classifier artifacts are opaque objects with effectful methods,
    modelled as records of functions returning Except String; a missing method or
    any library-level failure is a raised exception (an .error value).
  * numpy arrays of shape (1, k) are modelled by the single row as List ℚ;
    `probabilities[0, 1]` is indexing that row at position 1 (out of range raises).
  * pandas Series are Lists of Option values (None = NaN); Series.fillna with a
    Series value aligns positionally on the default RangeIndex; Series.map over a
    dict sends missing keys and NaN to NaN; `list(set(xs))` is modelled as
    List.dedup (same membership and no duplicates; Python's set order is
    unspecified and no property here depends on it).
-/
import Mathlib

namespace MLAudit

/-! ## src/app.py : data model -/

/-- app.py lines 40-47: the `PassengerData` pydantic model.  Integer fields stay
integers; float fields are rationals. -/
structure PassengerData where
  pclass : Int
  sex : Int
  age : ℚ
  sibsp : Int
  parch : Int
  fare : ℚ
  embarked : Int
deriving DecidableEq, Repr

/-- app.py lines 49-52: the `PredictionResponse` model. -/
structure PredictionResponse where
  prediction : Int
  probability : ℚ
  message : String
deriving DecidableEq, Repr

/-- A Python exception as observed by an `except` clause: either a (fastapi)
HTTPException carrying a status code and detail, or any other exception carrying
its message. -/
inductive PyErr where
  | httpExc (status : Nat) (detail : String)
  | exc (msg : String)
deriving DecidableEq, Repr

/-- Python str(e): starlette's HTTPException renders as "<status>: <detail>";
for a generic exception we take its message. -/
def pyStr : PyErr → String
  | .httpExc status detail => toString status ++ ": " ++ detail
  | .exc msg => msg

/-- The fitted scaler artifact: its only method used by the service is
`transform`, which may raise. -/
structure ScalerObj where
  transform : List ℚ → Except String (List ℚ)

/-- The fitted classifier artifact: `predict` (returning the single class label,
already coerced by `int(...)`) and `predict_proba` (returning the single row of
the (1, n_classes) probability array).  Either method may raise — in particular
`predict_proba` raising AttributeError models an artifact without probability
support. -/
structure ModelObj where
  predictFn : List ℚ → Except String Int
  predictProba : List ℚ → Except String (List ℚ)

/-- app.py lines 111-119 (and identically lines 175-183): the fixed-order
feature vector [pclass, sex, age, sibsp, parch, fare, embarked]. -/
def featureVector (passenger : PassengerData) : List ℚ :=
  [(passenger.pclass : ℚ), (passenger.sex : ℚ), passenger.age,
   (passenger.sibsp : ℚ), (passenger.parch : ℚ), passenger.fare,
   (passenger.embarked : ℚ)]

/-- `scaler.transform(X)` where the global `scaler` may still be None
(attribute access on None raises). -/
def scalerTransform : Option ScalerObj → List ℚ → Except PyErr (List ℚ)
  | none, _ => .error (.exc "NoneType object has no attribute transform")
  | some s, v => (s.transform v).mapError .exc

/-- `int(model.predict(X_scaled))`. -/
def modelPredict (m : ModelObj) (v : List ℚ) : Except PyErr Int :=
  (m.predictFn v).mapError .exc

/-- `model.predict_proba(X_scaled)` — the row of the (1, 2) result. -/
def modelPredictProba (m : ModelObj) (v : List ℚ) : Except PyErr (List ℚ) :=
  (m.predictProba v).mapError .exc

/-- `probabilities[0, 1]`: position 1 of the single row; out of range is an
IndexError. -/
def indexRow1 (row : List ℚ) : Except PyErr ℚ :=
  match row.get? 1 with
  | some q => .ok q
  | none => .error (.exc "index 1 is out of bounds for axis 1")

/-- app.py line 134: the human-readable message.  The numeric rendering of the
percentage abstracts Python's `:.2%` float formatting; no property depends on
the message text. -/
def predictionMessage (prediction : Int) (survival_probability : ℚ) : String :=
  "Пассажир " ++ (if prediction = 1 then "выжил" else "не выжил") ++
    " (уверенность: " ++ toString (survival_probability * 100) ++ "%)"

/-- app.py lines 106-142: the body of the `try:` block of `/predict`.  The
`raise HTTPException(503, ...)` on line 108 happens inside the `try`, so its
exception propagates to the same `except Exception` handler as any other. -/
def predictBody (model : Option ModelObj) (scaler : Option ScalerObj)
    (passenger : PassengerData) : Except PyErr PredictionResponse := do
  match model with
  | none => throw (PyErr.httpExc 503 "Model not loaded")
  | some m =>
    let X := featureVector passenger
    let X_scaled ← scalerTransform scaler X
    let prediction ← modelPredict m X_scaled
    let probabilities ← modelPredictProba m X_scaled
    let survival_probability ← indexRow1 probabilities
    let message := predictionMessage prediction survival_probability
    pure { prediction := prediction, probability := survival_probability,
           message := message }

/-- app.py lines 74-146: the whole `/predict` handler.  Every exception raised
in the body — the 503 HTTPException of line 108 included, since fastapi's
HTTPException inherits from Exception — is caught by lines 144-146 and
re-raised as `HTTPException(400, str(e))`. -/
def predict (model : Option ModelObj) (scaler : Option ScalerObj)
    (passenger : PassengerData) : Except PyErr PredictionResponse :=
  match predictBody model scaler passenger with
  | .ok r => .ok r
  | .error e => .error (.httpExc 400 (pyStr e))

/-- app.py lines 190-194: one element of the batch `results` list. -/
structure BatchItem where
  prediction : Int
  probability : ℚ
  survived : Bool
deriving DecidableEq, Repr

/-- app.py lines 196-199: the batch response. -/
structure BatchResponse where
  count : Nat
  results : List BatchItem
deriving DecidableEq, Repr

/-- app.py lines 174-194: the `for passenger in passengers:` loop.  Each
iteration repeats, line for line, the inference pipeline of `/predict`
(lines 175-188 = lines 111-131) and appends the item; the first exception
aborts the whole loop. -/
def batchLoop (m : ModelObj) (scaler : Option ScalerObj) :
    List PassengerData → Except PyErr (List BatchItem)
  | [] => pure []
  | passenger :: rest => do
    let X := featureVector passenger
    let X_scaled ← scalerTransform scaler X
    let prediction ← modelPredict m X_scaled
    let probabilities ← modelPredictProba m X_scaled
    let survival_probability ← indexRow1 probabilities
    let item : BatchItem :=
      { prediction := prediction, probability := survival_probability,
        survived := decide (prediction ≠ 0) }
    let restResults ← batchLoop m scaler rest
    pure (item :: restResults)

/-- app.py lines 168-199: the body of the `try:` block of `/batch-predict`. -/
def batchBody (model : Option ModelObj) (scaler : Option ScalerObj)
    (passengers : List PassengerData) : Except PyErr BatchResponse := do
  match model with
  | none => throw (PyErr.httpExc 503 "Model not loaded")
  | some m =>
    let results ← batchLoop m scaler passengers
    pure { count := results.length, results := results }

/-- app.py lines 155-203: the whole `/batch-predict` handler, with the blanket
`except Exception` of lines 201-203. -/
def batch_predict (model : Option ModelObj) (scaler : Option ScalerObj)
    (passengers : List PassengerData) : Except PyErr BatchResponse :=
  match batchBody model scaler passengers with
  | .ok r => .ok r
  | .error e => .error (.httpExc 400 (pyStr e))

/-! ## FastAPI request validation (framework layer in front of the handlers) -/

/-- A JSON value as far as validation needs to distinguish it. -/
inductive JsonVal where
  | jnum (q : ℚ)
  | jstr (s : String)
  | jbool (b : Bool)
  | jnull
deriving DecidableEq, Repr

/-- A JSON object body: field name to value. -/
abbrev RawRecord := List (String × JsonVal)

/-- Field lookup in a JSON object. -/
def getRawField (r : RawRecord) (k : String) : Option JsonVal :=
  (r.find? (fun p => p.1 == k)).map Prod.snd

/-- Modelled from the spec: pydantic validation of an `int` field (spec §4.1 -
"If any field is missing or of the wrong type, fail with a bad input condition
... before invoking the model"); this validation code lives in the FastAPI /
pydantic libraries, not under src/. -/
def parseIntField (name : String) : Option JsonVal → Except String Int
  | some (.jnum q) =>
    if q.den = 1 then .ok q.num else .error (name ++ ": value is not a valid integer")
  | some _ => .error (name ++ ": value is not a valid integer")
  | none => .error (name ++ ": field required")

/-- Modelled from the spec: pydantic validation of a `float` field. -/
def parseFloatField (name : String) : Option JsonVal → Except String ℚ
  | some (.jnum q) => .ok q
  | some _ => .error (name ++ ": value is not a valid number")
  | none => .error (name ++ ": field required")

/-- Modelled from the spec: construction of `PassengerData` from a request
body, rejecting missing fields and wrong types before the handler runs. -/
def parsePassenger (r : RawRecord) : Except String PassengerData := do
  let pclass ← parseIntField "pclass" (getRawField r "pclass")
  let sex ← parseIntField "sex" (getRawField r "sex")
  let age ← parseFloatField "age" (getRawField r "age")
  let sibsp ← parseIntField "sibsp" (getRawField r "sibsp")
  let parch ← parseIntField "parch" (getRawField r "parch")
  let fare ← parseFloatField "fare" (getRawField r "fare")
  let embarked ← parseIntField "embarked" (getRawField r "embarked")
  pure { pclass := pclass, sex := sex, age := age, sibsp := sibsp,
         parch := parch, fare := fare, embarked := embarked }

/-- Parse every element of a JSON array body (`List[PassengerData]`). -/
def parsePassengerList : List RawRecord → Except String (List PassengerData)
  | [] => pure []
  | r :: rest => do
    let p ← parsePassenger r
    let ps ← parsePassengerList rest
    pure (p :: ps)

/-- The `/predict` route as seen by a client: framework validation (422 on
malformed input), then the handler of app.py lines 74-146. -/
def route_predict (model : Option ModelObj) (scaler : Option ScalerObj)
    (raw : RawRecord) : Except PyErr PredictionResponse :=
  match parsePassenger raw with
  | .error msg => .error (.httpExc 422 msg)
  | .ok p => predict model scaler p

/-- The `/batch-predict` route as seen by a client: framework validation of the
array body, then the handler of app.py lines 155-203. -/
def route_batch (model : Option ModelObj) (scaler : Option ScalerObj)
    (rawList : List RawRecord) : Except PyErr BatchResponse :=
  match parsePassengerList rawList with
  | .error msg => .error (.httpExc 422 msg)
  | .ok ps => batch_predict model scaler ps

/-! ## src/train_model.py : preprocess_data (lines 11-29) -/

/-- The raw Titanic dataframe: each column is a pandas Series over the default
RangeIndex, `none` standing for NaN / missing. -/
structure TitanicDF where
  pclass : List (Option ℚ)
  sex : List (Option String)
  age : List (Option ℚ)
  sibsp : List (Option ℚ)
  parch : List (Option ℚ)
  fare : List (Option ℚ)
  embarked : List (Option String)
deriving DecidableEq, Repr

/-- The numeric feature frame `X` returned by preprocess_data. -/
structure XFrame where
  pclass : List ℚ
  sex : List ℚ
  age : List ℚ
  sibsp : List ℚ
  parch : List ℚ
  fare : List ℚ
  embarked : List ℚ
deriving DecidableEq, Repr

/-- The non-null values of a Series (pandas skips NaN in median/mode). -/
def somes (xs : List (Option α)) : List α := xs.filterMap id

/-- pandas Series.median over the non-null values: middle element of the sorted
list for odd length, mean of the two middles for even length, NaN (none) when
empty. -/
def medianQ (xs : List ℚ) : Option ℚ :=
  let s := xs.insertionSort (· ≤ ·)
  let n := s.length
  if n = 0 then none
  else if n % 2 = 1 then s.get? (n / 2)
  else
    match s.get? (n / 2 - 1), s.get? (n / 2) with
    | some a, some b => some ((a + b) / 2)
    | _, _ => none

/-- Byte-wise lexicographic comparison of strings (the order pandas sorts mode
values in). -/
def charListLe : List Char → List Char → Bool
  | [], _ => true
  | _ :: _, [] => false
  | a :: as, b :: bs =>
    if a.toNat < b.toNat then true
    else if b.toNat < a.toNat then false
    else charListLe as bs

/-- String comparison used to sort the mode values ascending. -/
def strLeB (a b : String) : Bool := charListLe a.data b.data

/-- pandas Series.mode over the non-null values: all values attaining the
maximal multiplicity, sorted ascending, as a Series over RangeIndex 0,1,... -/
def modeStr (xs : List String) : List String :=
  let uniq := xs.dedup
  let mx := (uniq.map (fun v => xs.count v)).foldr max 0
  (uniq.filter (fun v => xs.count v = mx)).insertionSort (fun a b => strLeB a b = true)

/-- Keep a present value, otherwise fall back (the per-cell effect of fillna). -/
def fillFirst (o : Option α) (v : Option α) : Option α :=
  match o with
  | some x => some x
  | none => v

/-- pandas `Series.fillna(value)` where `value` is itself a Series: alignment is
by index, i.e. positional on the default RangeIndex — the NaN at position i is
filled with value[i] when that position exists, and stays NaN otherwise. -/
def fillnaSeries : List (Option String) → List String → List (Option String)
  | [], _ => []
  | col, [] => col
  | o :: rest, v :: vs => fillFirst o (some v) :: fillnaSeries rest vs

/-- train_model.py line 22: `df['Sex'].map({'male': 0, 'female': 1})` — the
dict lookup; a key outside the dict maps to NaN. -/
def sexCode : String → Option ℚ
  | "male" => some 0
  | "female" => some 1
  | _ => none

/-- train_model.py line 23: `df['Embarked'].map({'S': 0, 'C': 1, 'Q': 2})`. -/
def embCode : String → Option ℚ
  | "S" => some 0
  | "C" => some 1
  | "Q" => some 2
  | _ => none

/-- train_model.py line 26: the training-time feature (column) order. -/
def trainingFeatures : List String :=
  ["Pclass", "Sex", "Age", "SibSp", "Parch", "Fare", "Embarked"]

/-- train_model.py lines 11-29: `preprocess_data(df)`.  Line 15 copies the
dataframe, so every in-place update below acts on the copy; the function
returns the feature frame X together with the (unchanged) caller's dataframe,
which makes the mutation behaviour of the original argument explicit.
Line 18 fills missing Age with the column median (a scalar).
Line 19 calls `fillna` with `df['Embarked'].mode()` — a SERIES, so the fill
aligns by position, not a scalar broadcast.
Lines 22-23 remap Sex and Embarked through dicts (NaN and unknown keys → NaN).
Line 27 selects the feature columns and fills every remaining NaN with 0. -/
def preprocess_data (df : TitanicDF) : XFrame × TitanicDF :=
  let age1 : List (Option ℚ) :=
    match medianQ (somes df.age) with
    | some m => df.age.map (fun o => some (o.getD m))
    | none => df.age
  let embarked1 := fillnaSeries df.embarked (modeStr (somes df.embarked))
  let sex1 : List (Option ℚ) := df.sex.map (fun o => o.bind sexCode)
  let embarked2 : List (Option ℚ) := embarked1.map (fun o => o.bind embCode)
  ({ pclass := df.pclass.map (fun o => o.getD 0)
     sex := sex1.map (fun o => o.getD 0)
     age := age1.map (fun o => o.getD 0)
     sibsp := df.sibsp.map (fun o => o.getD 0)
     parch := df.parch.map (fun o => o.getD 0)
     fare := df.fare.map (fun o => o.getD 0)
     embarked := embarked2.map (fun o => o.getD 0) }, df)

/-- The column of `X` named by a training feature, read off a serving-time
PassengerData record (the correspondence between train_model.py column names
and app.py fields). -/
def trainingColumnValue (name : String) (p : PassengerData) : ℚ :=
  match name with
  | "Pclass" => (p.pclass : ℚ)
  | "Sex" => (p.sex : ℚ)
  | "Age" => p.age
  | "SibSp" => (p.sibsp : ℚ)
  | "Parch" => (p.parch : ℚ)
  | "Fare" => p.fare
  | "Embarked" => (p.embarked : ℚ)
  | _ => 0

/-! ## src/audit_dependencies.py : check_outdated and create_audit_report -/

/-- `pat in hay` for strings (nonempty pattern): splitting on the pattern
yields more than one piece exactly when it occurs. -/
def strContains (hay pat : String) : Bool := (hay.splitOn pat).length != 1

/-- audit_dependencies.py lines 83-97: `check_outdated()`, as a function of the
stdout of `pip list --outdated`.  Both branches of the `if` return True. -/
def check_outdated (stdout : String) : Bool :=
  if !(strContains stdout "to check") && (stdout.trim == "") then
    true
  else
    true

/-- audit_dependencies.py lines 131-137: the `results` dict. -/
structure AuditResults where
  timestamp : String
  vulnerabilities : Bool
  licenses : Bool
  outdated : Bool
  sbom : Bool
deriving DecidableEq, Repr

/-- Python truthiness of a string (`all` applies it to the timestamp too). -/
def pyTruthyStr (s : String) : Bool := s != ""

/-- audit_dependencies.py line 147: `all(results.values())`. -/
def allResultsValues (r : AuditResults) : Bool :=
  pyTruthyStr r.timestamp && r.vulnerabilities && r.licenses && r.outdated && r.sbom

/-- audit_dependencies.py lines 125-156: the status returned by
`create_audit_report()`, as a function of the individual check outcomes (the
outdated check is a function of the pip stdout it sees). -/
def create_audit_report (timestamp : String) (vulnOk licOk sbomOk : Bool)
    (outdatedStdout : String) : Bool :=
  allResultsValues
    { timestamp := timestamp, vulnerabilities := vulnOk, licenses := licOk,
      outdated := check_outdated outdatedStdout, sbom := sbomOk }

/-- audit_dependencies.py line 160: `sys.exit(0 if success else 1)`. -/
def audit_exit_code (success : Bool) : Nat := if success then 0 else 1

/-! ## src/generate_audit_report.py : merge_vulnerabilities (lines 113-122) -/

/-- A Python dict mapping package name to a list of vulnerability ids,
modelled as an association list with the dict's (unique-key) insertion order. -/
abbrev VulnMap := List (String × List String)

/-- `pkg in d`. -/
def dictContains : VulnMap → String → Bool
  | [], _ => false
  | q :: rest, k => if q.1 = k then true else dictContains rest k

/-- `d[pkg]` (as an Option). -/
def dictGet : VulnMap → String → Option (List String)
  | [], _ => none
  | q :: rest, k => if q.1 = k then some q.2 else dictGet rest k

/-- `d[pkg] = v`: overwrite the entry in place when the key is present
(dict insertion order is preserved), else append a new entry at the end. -/
def dictSet : VulnMap → String → List String → VulnMap
  | [], k, v => [(k, v)]
  | q :: rest, k, v =>
    if q.1 = k then (k, v) :: rest else q :: dictSet rest k v

/-- One iteration of the loop in lines 116-121: ensure the key, extend with the
safety ids, replace by `list(set(...))` (modelled as dedup — same members, no
duplicates; Python's set iteration order is unspecified). -/
def mergeStep (merged : VulnMap) (pv : String × List String) : VulnMap :=
  let merged1 := if dictContains merged pv.1 then merged else dictSet merged pv.1 []
  let cur := (dictGet merged1 pv.1).getD []
  dictSet merged1 pv.1 ((cur ++ pv.2).dedup)

/-- generate_audit_report.py lines 113-122: `merge_vulnerabilities`.  Starts
from a copy of the pip-audit dict and folds the loop over the safety items. -/
def merge_vulnerabilities (audit_vulns safety_vulns : VulnMap) : VulnMap :=
  safety_vulns.foldl mergeStep audit_vulns

/-- The vulnerability list recorded for a package (empty when absent). -/
def dictVals (d : VulnMap) (k : String) : List String :=
  (dictGet d k).getD []

/-! ## Well-formed artifacts and specimen objects -/

/-- A fitted binary classifier with classes 0 and 1: `predict` returns one of
the two class labels and `predict_proba` returns a (1, 2) row of probabilities
in [0, 1]. -/
def GoodModel (m : ModelObj) : Prop :=
  ∀ v, (m.predictFn v = .ok 0 ∨ m.predictFn v = .ok 1) ∧
    ∃ p0 p1, m.predictProba v = .ok [p0, p1] ∧
      0 ≤ p0 ∧ p0 ≤ 1 ∧ 0 ≤ p1 ∧ p1 ≤ 1

/-- A scaler whose transform succeeds on every input. -/
def GoodScaler (s : ScalerObj) : Prop := ∀ v, ∃ w, s.transform v = .ok w

/-- A specimen scaler: the identity transform. -/
def idScaler : ScalerObj := { transform := fun v => .ok v }

/-- A specimen fitted classifier that always predicts class 1 with
probability row [0, 1]. -/
def unitModel : ModelObj :=
  { predictFn := fun _ => .ok 1, predictProba := fun _ => .ok [0, 1] }

/-- A specimen artifact without probability support: calling `predict_proba`
raises AttributeError. -/
def noProbaModel : ModelObj :=
  { predictFn := fun _ => .ok 1,
    predictProba := fun _ =>
      .error "RandomForestClassifier object has no attribute predict_proba" }

/-- The example passenger of spec §8 and app.py lines 80-90. -/
def samplePassenger : PassengerData :=
  { pclass := 1, sex := 1, age := 30, sibsp := 0, parch := 0, fare := 100,
    embarked := 0 }

/-- A two-row dataframe whose Embarked is missing in row 1 while the column
mode is "C": fillna with the mode Series aligns by position, so row 1 is not
filled and ends up as 0 after the final fillna(0), although the mode's code
is 1. -/
def exC8 : TitanicDF :=
  { pclass := [some 3, some 1], sex := [some "male", some "female"],
    age := [some 20, some 30], sibsp := [some 0, some 0],
    parch := [some 0, some 0], fare := [some 7, some 8],
    embarked := [some "C", none] }

/-- Specimen pip-audit vulnerability map (note the duplicate id for pkga). -/
def exAudit : VulnMap := [("pkga", ["VULN-1", "VULN-1"])]

/-- Specimen safety vulnerability map. -/
def exSafety : VulnMap := [("pkgb", ["VULN-2", "VULN-2"])]

/-! ## Proof infrastructure for the prediction endpoints

The inference pipeline (vectorize, scale, predict, predict_proba, index the
class-1 probability) appears verbatim in both handlers (app.py lines 111-131
and 175-188).  `inferSteps` names that common pipeline once so the two handler
embeddings can be related to it. -/

/-- The five shared inference steps, producing the class label and the class-1
probability. -/
def inferSteps (m : ModelObj) (scaler : Option ScalerObj) (p : PassengerData) :
    Except PyErr (Int × ℚ) := do
  let X_scaled ← scalerTransform scaler (featureVector p)
  let prediction ← modelPredict m X_scaled
  let probabilities ← modelPredictProba m X_scaled
  let survival_probability ← indexRow1 probabilities
  pure (prediction, survival_probability)

/-- Build the `/predict` response from the pipeline output. -/
def responseOf (pr : Int × ℚ) : PredictionResponse :=
  { prediction := pr.1, probability := pr.2, message := predictionMessage pr.1 pr.2 }

/-- Build one batch result item from the pipeline output
(`bool(prediction)` is `prediction ≠ 0`). -/
def itemOf (pr : Int × ℚ) : BatchItem :=
  { prediction := pr.1, probability := pr.2, survived := decide (pr.1 ≠ 0) }

lemma predictBody_some_eq (m : ModelObj) (scaler : Option ScalerObj)
    (p : PassengerData) :
    predictBody (some m) scaler p = (inferSteps m scaler p).map responseOf := by
  unfold predictBody inferSteps
  cases h1 : scalerTransform scaler (featureVector p) with
  | error e => simp [h1, Bind.bind, Except.bind, Except.map]
  | ok Xs =>
    cases h2 : modelPredict m Xs with
    | error e => simp [h1, h2, Bind.bind, Except.bind, Except.map]
    | ok pr =>
      cases h3 : modelPredictProba m Xs with
      | error e => simp [h1, h2, h3, Bind.bind, Except.bind, Except.map]
      | ok probs =>
        cases h4 : indexRow1 probs with
        | error e =>
          simp [h1, h2, h3, h4, Bind.bind, Except.bind, Except.map]
        | ok sp =>
          simp [h1, h2, h3, h4, Bind.bind, Except.bind, Except.map, Pure.pure, Except.pure,
                responseOf]

lemma batchLoop_cons_eq (m : ModelObj) (scaler : Option ScalerObj)
    (p : PassengerData) (rest : List PassengerData) :
    batchLoop m scaler (p :: rest) =
      (inferSteps m scaler p).bind
        (fun pr => (batchLoop m scaler rest).map (fun items => itemOf pr :: items)) := by
  show (do
    let X_scaled ← scalerTransform scaler (featureVector p)
    let prediction ← modelPredict m X_scaled
    let probabilities ← modelPredictProba m X_scaled
    let survival_probability ← indexRow1 probabilities
    let item : BatchItem :=
      { prediction := prediction, probability := survival_probability,
        survived := decide (prediction ≠ 0) }
    let restResults ← batchLoop m scaler rest
    pure (item :: restResults) : Except PyErr (List BatchItem)) = _
  unfold inferSteps
  cases h1 : scalerTransform scaler (featureVector p) with
  | error e => simp [h1, Bind.bind, Except.bind, Except.map]
  | ok Xs =>
    cases h2 : modelPredict m Xs with
    | error e => simp [h1, h2, Bind.bind, Except.bind, Except.map]
    | ok pr =>
      cases h3 : modelPredictProba m Xs with
      | error e => simp [h1, h2, h3, Bind.bind, Except.bind, Except.map]
      | ok probs =>
        cases h4 : indexRow1 probs with
        | error e =>
          simp [h1, h2, h3, h4, Bind.bind, Except.bind, Except.map]
        | ok sp =>
          cases h5 : batchLoop m scaler rest with
          | error e =>
            simp [h1, h2, h3, h4, h5, Bind.bind, Except.bind, Except.map,
                  Pure.pure, Except.pure]
          | ok items =>
            simp [h1, h2, h3, h4, h5, Bind.bind, Except.bind, Except.map,
                  Pure.pure, Except.pure, itemOf]

lemma predict_some_eq (m : ModelObj) (scaler : Option ScalerObj)
    (p : PassengerData) :
    predict (some m) scaler p =
      match inferSteps m scaler p with
      | .ok pr => .ok (responseOf pr)
      | .error e => .error (.httpExc 400 (pyStr e)) := by
  unfold predict
  rw [predictBody_some_eq]
  cases h : inferSteps m scaler p <;> simp [Except.map]

lemma batchBody_some_eq (m : ModelObj) (scaler : Option ScalerObj)
    (ps : List PassengerData) :
    batchBody (some m) scaler ps =
      (batchLoop m scaler ps).map
        (fun results => { count := results.length, results := results }) := by
  unfold batchBody
  cases h : batchLoop m scaler ps <;>
    simp [h, Bind.bind, Except.bind, Except.map, Pure.pure, Except.pure]

lemma batchLoop_ok_length (m : ModelObj) (scaler : Option ScalerObj)
    (ps : List PassengerData) (items : List BatchItem)
    (h : batchLoop m scaler ps = .ok items) : items.length = ps.length := by
  induction ps generalizing items with
  | nil =>
    simp only [batchLoop, Pure.pure] at h
    cases h
    rfl
  | cons p rest ih =>
    rw [batchLoop_cons_eq] at h
    cases h1 : inferSteps m scaler p with
    | error e => rw [h1] at h; cases h
    | ok pr =>
      rw [h1] at h
      cases h2 : batchLoop m scaler rest with
      | error e => rw [h2] at h; cases h
      | ok items0 =>
        rw [h2] at h
        simp only [Except.bind, Except.map] at h
        cases h
        simp [ih items0 h2]

lemma batchLoop_ok_item (m : ModelObj) (scaler : Option ScalerObj)
    (ps : List PassengerData) (items : List BatchItem)
    (h : batchLoop m scaler ps = .ok items) :
    ∀ i p0, ps.get? i = some p0 →
      ∃ pr, inferSteps m scaler p0 = .ok pr ∧ items.get? i = some (itemOf pr) := by
  induction ps generalizing items with
  | nil => intro i p0 hp; simp at hp
  | cons p rest ih =>
    intro i p0 hp
    rw [batchLoop_cons_eq] at h
    cases h1 : inferSteps m scaler p with
    | error e => rw [h1] at h; cases h
    | ok pr =>
      rw [h1] at h
      cases h2 : batchLoop m scaler rest with
      | error e => rw [h2] at h; cases h
      | ok items0 =>
        rw [h2] at h
        simp only [Except.bind, Except.map] at h
        cases h
        cases i with
        | zero =>
          simp only [List.get?] at hp
          cases hp
          exact ⟨pr, h1, rfl⟩
        | succ j =>
          simp only [List.get?] at hp
          exact ih items0 h2 j p0 hp

lemma batchLoop_error_first (m : ModelObj) (scaler : Option ScalerObj)
    (ps : List PassengerData) (e : PyErr)
    (h : batchLoop m scaler ps = .error e) :
    ∃ i p0, ps.get? i = some p0 ∧ inferSteps m scaler p0 = .error e ∧
      ∀ j, j < i → ∃ p1 pr, ps.get? j = some p1 ∧ inferSteps m scaler p1 = .ok pr := by
  induction ps with
  | nil => simp only [batchLoop, Pure.pure] at h; cases h
  | cons p rest ih =>
    rw [batchLoop_cons_eq] at h
    cases h1 : inferSteps m scaler p with
    | error e0 =>
      rw [h1] at h
      simp only [Except.bind] at h
      cases h
      exact ⟨0, p, rfl, h1, fun j hj => absurd hj (Nat.not_lt_zero j)⟩
    | ok pr =>
      rw [h1] at h
      cases h2 : batchLoop m scaler rest with
      | error e0 =>
        rw [h2] at h
        simp only [Except.bind, Except.map] at h
        cases h
        obtain ⟨i, p0, hp, he, hearlier⟩ := ih h2
        refine ⟨i + 1, p0, hp, he, fun j hj => ?_⟩
        cases j with
        | zero => exact ⟨p, pr, rfl, h1⟩
        | succ j0 =>
          obtain ⟨p1, pr1, hp1, hpr1⟩ := hearlier j0 (Nat.lt_of_succ_lt_succ hj)
          exact ⟨p1, pr1, hp1, hpr1⟩
      | ok items0 =>
        rw [h2] at h
        simp only [Except.bind, Except.map] at h
        cases h

lemma inferSteps_good (m : ModelObj) (s : ScalerObj) (p : PassengerData)
    (hm : GoodModel m) (hs : GoodScaler s) :
    ∃ pr : Int × ℚ, inferSteps m (some s) p = .ok pr ∧
      (pr.1 = 0 ∨ pr.1 = 1) ∧ 0 ≤ pr.2 ∧ pr.2 ≤ 1 := by
  obtain ⟨w, hw⟩ := hs (featureVector p)
  obtain ⟨hpred, p0, p1, hproba, _, _, hp1lo, hp1hi⟩ := hm w
  have hscale : scalerTransform (some s) (featureVector p) = .ok w := by
    simp [scalerTransform, hw, Except.mapError]
  have hproba2 : modelPredictProba m w = .ok [p0, p1] := by
    simp [modelPredictProba, hproba, Except.mapError]
  have hidx : indexRow1 [p0, p1] = .ok p1 := by simp [indexRow1]
  cases hpred with
  | inl h0 =>
    have hpred2 : modelPredict m w = .ok 0 := by
      simp [modelPredict, h0, Except.mapError]
    refine ⟨(0, p1), ?_, Or.inl rfl, hp1lo, hp1hi⟩
    simp [inferSteps, hscale, hpred2, hproba2, hidx, Bind.bind, Except.bind,
          Pure.pure, Except.pure]
  | inr h1 =>
    have hpred2 : modelPredict m w = .ok 1 := by
      simp [modelPredict, h1, Except.mapError]
    refine ⟨(1, p1), ?_, Or.inr rfl, hp1lo, hp1hi⟩
    simp [inferSteps, hscale, hpred2, hproba2, hidx, Bind.bind, Except.bind,
          Pure.pure, Except.pure]

lemma batchLoop_good (m : ModelObj) (s : ScalerObj) (ps : List PassengerData)
    (hm : GoodModel m) (hs : GoodScaler s) :
    ∃ items, batchLoop m (some s) ps = .ok items := by
  induction ps with
  | nil => exact ⟨[], rfl⟩
  | cons p rest ih =>
    obtain ⟨pr, hpr, _⟩ := inferSteps_good m s p hm hs
    obtain ⟨items, hitems⟩ := ih
    exact ⟨itemOf pr :: items,
      by rw [batchLoop_cons_eq, hpr, hitems]; rfl⟩

/-! ## Claim theorems -/

/-- C1.  The claim states that a prediction request made while the artifact is
unloaded fails with the 503-class "model unavailable" condition and not with a
400-class condition.  The code contradicts its own explicit
`raise HTTPException(status_code=503, detail="Model not loaded")` (app.py line
108): because fastapi's HTTPException inherits from Exception, the blanket
`except Exception` of lines 144-146 catches that very exception and re-raises
it as `HTTPException(400, str(e))`, so the client observes a 400 whose detail
is the rendered 503 exception.  This theorem evaluates the embedded handler at
the failing state: for EVERY scaler state and EVERY passenger record the
result is the 400-class error (the constant right-hand side also shows that no
vectorization or model call influences the outcome).  The "never attempts
vectorization" half of the claim does hold. -/
theorem c1_unloaded_reported_as_400 (scaler : Option ScalerObj)
    (p : PassengerData) :
    predict none scaler p =
      .error (.httpExc 400 (pyStr (.httpExc 503 "Model not loaded"))) ∧
    pyStr (.httpExc 503 "Model not loaded") = "503: Model not loaded" := by
  exact ⟨rfl, rfl⟩

/-- C2 counterexample.  The claim states that when `predict_proba` is
unavailable on the artifact the service does not fail and falls back to the
discrete prediction.  In the code there is no such fallback: app.py line 130
calls `model.predict_proba` unconditionally, the AttributeError propagates to
the `except` clause and the request fails with a 400.  Concretely, with a
loaded artifact whose `predict_proba` raises, the sample passenger gets an
error, not a degraded response. -/
theorem c2_counterexample_no_fallback :
    predict (some noProbaModel) (some idScaler) samplePassenger =
      .error (.httpExc 400
        "RandomForestClassifier object has no attribute predict_proba") ∧
    ¬ ∃ r, predict (some noProbaModel) (some idScaler) samplePassenger =
      .ok r := by
  refine ⟨rfl, ?_⟩
  rintro ⟨r, hr⟩
  rw [show predict (some noProbaModel) (some idScaler) samplePassenger =
        .error (.httpExc 400
          "RandomForestClassifier object has no attribute predict_proba")
      from rfl] at hr
  exact Except.noConfusion hr

/-- C2 amended.  When the probability-producing operation is unavailable on
the artifact (predict_proba raises with some message) while scaling and the
discrete prediction succeed, `/predict` does not fall back: it fails with the
invalid-input (400-class) condition carrying that message. -/
theorem c2_amended_proba_failure_is_400 (m : ModelObj) (s : ScalerObj)
    (p : PassengerData) (msg : String) (w : List ℚ) (c : Int)
    (hw : s.transform (featureVector p) = .ok w)
    (hc : m.predictFn w = .ok c)
    (hp : m.predictProba w = .error msg) :
    predict (some m) (some s) p = .error (.httpExc 400 msg) := by
  have hscale : scalerTransform (some s) (featureVector p) = .ok w := by
    simp [scalerTransform, hw, Except.mapError]
  have hpred : modelPredict m w = .ok c := by
    simp [modelPredict, hc, Except.mapError]
  have hproba : modelPredictProba m w = .error (.exc msg) := by
    simp [modelPredictProba, hp, Except.mapError]
  have hinfer : inferSteps m (some s) p = .error (.exc msg) := by
    simp [inferSteps, hscale, hpred, hproba, Bind.bind, Except.bind]
  rw [predict_some_eq, hinfer]
  rfl

/-- C2 witness: the amended theorem applied at the specimen artifact without
probability support. -/
theorem c2_amended_witness :
    predict (some noProbaModel) (some idScaler) samplePassenger =
      .error (.httpExc 400
        "RandomForestClassifier object has no attribute predict_proba") :=
  c2_amended_proba_failure_is_400 noProbaModel idScaler samplePassenger
    "RandomForestClassifier object has no attribute predict_proba"
    (featureVector samplePassenger) 1 rfl rfl rfl

/-- C3.  The feature vector handed to the scaler and classifier by `/predict`
(`featureVector`, used by both `predictBody` and `batchLoop`) is exactly
[class, sex, age, siblings/spouses, parents/children, fare, embarkation] in
that order, and that order coincides column-for-column with the training-time
feature list of train_model.py line 26. -/
theorem c3_feature_vector_order (p : PassengerData) :
    featureVector p =
      [(p.pclass : ℚ), (p.sex : ℚ), p.age, (p.sibsp : ℚ), (p.parch : ℚ),
       p.fare, (p.embarked : ℚ)] ∧
    trainingFeatures = ["Pclass", "Sex", "Age", "SibSp", "Parch", "Fare",
      "Embarked"] ∧
    featureVector p = trainingFeatures.map (fun name => trainingColumnValue name p) := by
  refine ⟨rfl, rfl, ?_⟩
  rfl

/-- C4.  With the artifact loaded and well formed — a fitted binary classifier
with classes 0 and 1 behind a total scaler — every valid PassengerRecord gets
a response whose prediction is in {0, 1} and whose probability lies in
[0, 1]. -/
theorem c4_prediction_and_probability_in_range (m : ModelObj) (s : ScalerObj)
    (p : PassengerData) (hm : GoodModel m) (hs : GoodScaler s) :
    ∃ r, predict (some m) (some s) p = .ok r ∧
      (r.prediction = 0 ∨ r.prediction = 1) ∧
      0 ≤ r.probability ∧ r.probability ≤ 1 := by
  obtain ⟨pr, hpr, hlabel, hlo, hhi⟩ := inferSteps_good m s p hm hs
  refine ⟨responseOf pr, ?_, hlabel, hlo, hhi⟩
  rw [predict_some_eq, hpr]

/-- C4 witness: the range theorem applied at the specimen artifact and the
spec §8 example passenger. -/
theorem c4_witness :
    ∃ r, predict (some unitModel) (some idScaler) samplePassenger = .ok r ∧
      (r.prediction = 0 ∨ r.prediction = 1) ∧
      0 ≤ r.probability ∧ r.probability ≤ 1 :=
  c4_prediction_and_probability_in_range unitModel idScaler samplePassenger
    (fun _ => ⟨Or.inr rfl, 0, 1, rfl, le_refl 0, zero_le_one, zero_le_one,
      le_refl 1⟩)
    (fun v => ⟨v, rfl⟩)

/-- C5.  `/batch-predict` refines `/predict` item by item: whenever the batch
succeeds, result i carries exactly the prediction and probability `/predict`
would return for input i (each item computed independently through the same
pipeline); whenever the batch fails, the error it reports is the error
`/predict` would report for the first failing item, every earlier item being
one `/predict` would accept — except in the unloaded-artifact case, where the
batch fails with the same wrapped 503-as-400 error `/predict` itself produces
before looking at any item. -/
theorem c5_batch_refines_predict (model : Option ModelObj)
    (scaler : Option ScalerObj) (ps : List PassengerData) :
    (∀ resp, batch_predict model scaler ps = .ok resp →
      ∀ i p0, ps.get? i = some p0 →
        ∃ r it, predict model scaler p0 = .ok r ∧
          resp.results.get? i = some it ∧
          it.prediction = r.prediction ∧ it.probability = r.probability) ∧
    (∀ e, batch_predict model scaler ps = .error e →
      (model = none ∧
        e = .httpExc 400 (pyStr (.httpExc 503 "Model not loaded"))) ∨
      (∃ i p0, ps.get? i = some p0 ∧ predict model scaler p0 = .error e ∧
        ∀ j, j < i → ∃ p1 r, ps.get? j = some p1 ∧
          predict model scaler p1 = .ok r)) := by
  cases model with
  | none =>
    constructor
    · intro resp hresp
      exact absurd hresp (by intro h; exact Except.noConfusion h)
    · intro e he
      left
      refine ⟨rfl, ?_⟩
      have : (Except.error (.httpExc 400
          (pyStr (.httpExc 503 "Model not loaded"))) :
            Except PyErr BatchResponse) = .error e := he ▸ rfl
      cases this
      rfl
  | some m =>
    have hbatch : ∀ x, batch_predict (some m) scaler ps = x ↔
        (match batchLoop m scaler ps with
         | .ok results =>
            (.ok { count := results.length, results := results } :
              Except PyErr BatchResponse)
         | .error e => .error (.httpExc 400 (pyStr e))) = x := by
      intro x
      unfold batch_predict
      rw [batchBody_some_eq]
      cases hl : batchLoop m scaler ps <;> simp [Except.map]
    constructor
    · intro resp hresp i p0 hp0
      rw [hbatch (.ok resp)] at hresp
      cases hl : batchLoop m scaler ps with
      | error e => rw [hl] at hresp; exact Except.noConfusion hresp
      | ok items =>
        rw [hl] at hresp
        cases hresp
        obtain ⟨pr, hpr, hit⟩ := batchLoop_ok_item m scaler ps items hl i p0 hp0
        refine ⟨responseOf pr, itemOf pr, ?_, hit, rfl, rfl⟩
        rw [predict_some_eq, hpr]
    · intro e he
      right
      rw [hbatch (.error e)] at he
      cases hl : batchLoop m scaler ps with
      | ok items => rw [hl] at he; exact Except.noConfusion he
      | error e0 =>
        rw [hl] at he
        cases he
        obtain ⟨i, p0, hp0, herr, hearlier⟩ :=
          batchLoop_error_first m scaler ps e0 hl
        refine ⟨i, p0, hp0, ?_, ?_⟩
        · rw [predict_some_eq, herr]
        · intro j hj
          obtain ⟨p1, pr, hp1, hpr⟩ := hearlier j hj
          exact ⟨p1, responseOf pr, hp1,
            by rw [predict_some_eq, hpr]⟩

/-- C5 witness: the refinement theorem applied to a concrete one-element
batch on the specimen artifact; the per-item hypothesis (the batch result) is
discharged by evaluation. -/
theorem c5_witness :
    ∃ r it,
      predict (some unitModel) (some idScaler) samplePassenger = .ok r ∧
      ({ count := 1,
         results := [{ prediction := 1, probability := 1, survived := true }] }
          : BatchResponse).results.get? 0 = some it ∧
      it.prediction = r.prediction ∧ it.probability = r.probability :=
  (c5_batch_refines_predict (some unitModel) (some idScaler)
      [samplePassenger]).1
    { count := 1,
      results := [{ prediction := 1, probability := 1, survived := true }] }
    rfl 0 samplePassenger rfl

/-- C6.  With the artifact loaded and well formed, a batch of N valid records
yields exactly N per-item results, and the i-th result is precisely what the
inference pipeline produces on the i-th input (input order preserved, no
cross-item interaction: item i is also what a singleton batch on input i
returns). -/
theorem c6_batch_count_and_order (m : ModelObj) (s : ScalerObj)
    (ps : List PassengerData) (hm : GoodModel m) (hs : GoodScaler s) :
    ∃ resp, batch_predict (some m) (some s) ps = .ok resp ∧
      resp.count = ps.length ∧ resp.results.length = ps.length ∧
      ∀ i p0, ps.get? i = some p0 →
        ∃ it, resp.results.get? i = some it ∧
          batchLoop m (some s) [p0] = .ok [it] := by
  obtain ⟨items, hitems⟩ := batchLoop_good m s ps hm hs
  have hlen := batchLoop_ok_length m (some s) ps items hitems
  refine ⟨{ count := items.length, results := items }, ?_, hlen, hlen, ?_⟩
  · unfold batch_predict
    rw [batchBody_some_eq, hitems]
    rfl
  · intro i p0 hp0
    obtain ⟨pr, hpr, hit⟩ := batchLoop_ok_item m (some s) ps items hitems i p0 hp0
    refine ⟨itemOf pr, hit, ?_⟩
    rw [batchLoop_cons_eq, hpr]
    rfl

/-- C6 witness: the count/order theorem applied to a concrete two-element
batch on the specimen artifact. -/
theorem c6_witness :
    ∃ resp, batch_predict (some unitModel) (some idScaler)
        [samplePassenger, samplePassenger] = .ok resp ∧
      resp.count = 2 ∧ resp.results.length = 2 ∧
      ∀ i p0, [samplePassenger, samplePassenger].get? i = some p0 →
        ∃ it, resp.results.get? i = some it ∧
          batchLoop unitModel (some idScaler) [p0] = .ok [it] :=
  c6_batch_count_and_order unitModel idScaler [samplePassenger, samplePassenger]
    (fun _ => ⟨Or.inr rfl, 0, 1, rfl, le_refl 0, zero_le_one, zero_le_one,
      le_refl 1⟩)
    (fun v => ⟨v, rfl⟩)

/-- C7.  Every outcome of the two prediction routes is either a success or a
client-error (4xx) HTTPException: the framework rejects malformed bodies with
a 422 validation error before the handler runs, and inside the handler every
exception raised during inference is caught by the blanket `except Exception`
and reported as `HTTPException(400, str(e))` — never an unhandled fault or a
5xx.  The last conjunct states the catch-and-wrap exactly: whenever the
handler body raises e, the client sees the 400-class condition whose detail is
the rendered message of e. -/
theorem c7_no_unhandled_fault (model : Option ModelObj)
    (scaler : Option ScalerObj) (raw : RawRecord) (rawList : List RawRecord) :
    ((∃ r, route_predict model scaler raw = .ok r) ∨
      (∃ c d, route_predict model scaler raw = .error (.httpExc c d) ∧
        400 ≤ c ∧ c < 500)) ∧
    ((∃ resp, route_batch model scaler rawList = .ok resp) ∨
      (∃ c d, route_batch model scaler rawList = .error (.httpExc c d) ∧
        400 ≤ c ∧ c < 500)) ∧
    (∀ p, (∃ r, predictBody model scaler p = .ok r ∧
        predict model scaler p = .ok r) ∨
      (∃ e, predictBody model scaler p = .error e ∧
        predict model scaler p = .error (.httpExc 400 (pyStr e)))) := by
  have hpredict : ∀ p, (∃ r, predictBody model scaler p = .ok r ∧
      predict model scaler p = .ok r) ∨
      (∃ e, predictBody model scaler p = .error e ∧
        predict model scaler p = .error (.httpExc 400 (pyStr e))) := by
    intro p
    cases hb : predictBody model scaler p with
    | ok r => exact Or.inl ⟨r, rfl, by unfold predict; rw [hb]⟩
    | error e => exact Or.inr ⟨e, rfl, by unfold predict; rw [hb]⟩
  refine ⟨?_, ?_, hpredict⟩
  · unfold route_predict
    cases hparse : parsePassenger raw with
    | error msg =>
      exact Or.inr ⟨422, msg, rfl, by omega, by omega⟩
    | ok p =>
      cases hpredict p with
      | inl h => obtain ⟨r, _, hr⟩ := h; exact Or.inl ⟨r, hr⟩
      | inr h =>
        obtain ⟨e, _, hr⟩ := h
        exact Or.inr ⟨400, pyStr e, hr, by omega, by omega⟩
  · unfold route_batch
    cases hparse : parsePassengerList rawList with
    | error msg =>
      exact Or.inr ⟨422, msg, rfl, by omega, by omega⟩
    | ok ps =>
      cases hb : batchBody model scaler ps with
      | ok resp =>
        refine Or.inl ⟨resp, ?_⟩
        simp [batch_predict, hb]
      | error e =>
        refine Or.inr ⟨400, pyStr e, ?_, by omega, by omega⟩
        simp [batch_predict, hb]

lemma fillnaSeries_nil (col : List (Option String)) :
    fillnaSeries col [] = col := by
  cases col <;> rfl

lemma fillnaSeries_get? (col : List (Option String)) (vals : List String)
    (i : Nat) :
    (fillnaSeries col vals).get? i =
      (col.get? i).map (fun o => fillFirst o (vals.get? i)) := by
  induction col generalizing vals i with
  | nil => simp [fillnaSeries]
  | cons o rest ih =>
    cases vals with
    | nil =>
      rw [fillnaSeries_nil]
      cases h : (o :: rest).get? i with
      | none => rfl
      | some oo => cases oo <;> rfl
    | cons v vs =>
      cases i with
      | zero => cases o <;> rfl
      | succ j =>
        show (fillnaSeries rest vs).get? j = _
        rw [ih vs j]
        rfl

/-- C8 counterexample.  The claim states that missing Embarked values are
imputed with the column mode.  On `exC8` the Embarked column is
["C", missing] and its mode is "C" (whose numeric code is 1), yet the value
the pipeline produces for the missing cell is 0, not 1: line 19 of
train_model.py passes `df['Embarked'].mode()` — a one-element Series indexed
0 — to `fillna`, which aligns by position, so the NaN at row 1 is not filled;
it then survives the dict remap as NaN and becomes 0 only through the final
`fillna(0)` of line 27. -/
theorem c8_counterexample_mode_not_imputed :
    modeStr (somes exC8.embarked) = ["C"] ∧
    embCode "C" = some 1 ∧
    (preprocess_data exC8).1.embarked = [1, 0] ∧
    (preprocess_data exC8).1.embarked ≠ [1, 1] := by
  refine ⟨by decide, by decide, by decide, by decide⟩

/-- C8 amended.  Pointwise characterization of preprocess_data: missing Age is
imputed with the column median (0 when the whole column is missing); Sex is
remapped through {male ↦ 0, female ↦ 1} and Embarked through
{S ↦ 0, C ↦ 1, Q ↦ 2} (unmapped or missing values becoming 0 via the final
fillna(0)); the original dataframe is left unchanged.  For Embarked, a missing
value at row i is NOT in general imputed with the column mode: the mode Series
aligns positionally, so the cell is filled with the i-th of the sorted mode
values when that position exists and otherwise stays missing until the final
fillna(0) turns it into 0. -/
theorem c8_amended_preprocess_characterization (df : TitanicDF) (i : Nat) :
    (preprocess_data df).2 = df ∧
    (preprocess_data df).1.age.get? i =
      (df.age.get? i).map
        (fun o => o.getD ((medianQ (somes df.age)).getD 0)) ∧
    (preprocess_data df).1.sex.get? i =
      (df.sex.get? i).map (fun o => (o.bind sexCode).getD 0) ∧
    (preprocess_data df).1.embarked.get? i =
      (df.embarked.get? i).map
        (fun o =>
          ((fillFirst o ((modeStr (somes df.embarked)).get? i)).bind
            embCode).getD 0) := by
  have hage : (preprocess_data df).1.age =
      ((match medianQ (somes df.age) with
        | some m => df.age.map (fun o => some (o.getD m))
        | none => df.age : List (Option ℚ))).map
          (fun (o : Option ℚ) => o.getD 0) := rfl
  have hsex : (preprocess_data df).1.sex =
      (df.sex.map (fun o => o.bind sexCode)).map (fun o => o.getD 0) := rfl
  have hemb : (preprocess_data df).1.embarked =
      ((fillnaSeries df.embarked (modeStr (somes df.embarked))).map
        (fun o => o.bind embCode)).map (fun o => o.getD 0) := rfl
  refine ⟨rfl, ?_, ?_, ?_⟩
  · rw [hage]
    cases hmed : medianQ (somes df.age) with
    | none =>
      rw [List.get?_map]
      cases hv : df.age.get? i with
      | none => rfl
      | some oo => cases oo <;> rfl
    | some m =>
      rw [List.get?_map, List.get?_map]
      cases hv : df.age.get? i with
      | none => rfl
      | some oo => cases oo <;> rfl
  · rw [hsex, List.get?_map, List.get?_map]
    cases hv : df.sex.get? i with
    | none => rfl
    | some oo => cases oo <;> rfl
  · rw [hemb, List.get?_map, List.get?_map, fillnaSeries_get?]
    cases hv : df.embarked.get? i with
    | none => rfl
    | some oo => cases oo <;> rfl

/-! ## Dictionary lemmas for merge_vulnerabilities -/

lemma dictGet_dictSet_self (d : VulnMap) (k : String) (v : List String) :
    dictGet (dictSet d k v) k = some v := by
  induction d with
  | nil => simp [dictSet, dictGet]
  | cons q rest ih =>
    by_cases hq : q.1 = k <;> simp [dictSet, dictGet, hq, ih]

lemma dictGet_dictSet_ne (d : VulnMap) (k k2 : String) (v : List String)
    (h : k2 ≠ k) : dictGet (dictSet d k v) k2 = dictGet d k2 := by
  have hne : ¬ k = k2 := fun he => h he.symm
  induction d with
  | nil => simp [dictSet, dictGet, hne]
  | cons q rest ih =>
    by_cases hq : q.1 = k
    · have hq2 : ¬ q.1 = k2 := by rw [hq]; exact hne
      simp [dictSet, dictGet, hq, hq2, hne]
    · by_cases hq2 : q.1 = k2
      · simp [dictSet, dictGet, hq, hq2, h, ih]
      · simp [dictSet, dictGet, hq, hq2, ih]

lemma dictContains_dictSet (d : VulnMap) (k k2 : String) (v : List String) :
    dictContains (dictSet d k v) k2 =
      (dictContains d k2 || decide (k = k2)) := by
  induction d with
  | nil => simp [dictSet, dictContains]
  | cons q rest ih =>
    by_cases hq : q.1 = k
    · by_cases hk2 : k = k2
      · simp [dictSet, dictContains, hq, hk2]
      · have hq2 : ¬ q.1 = k2 := by rw [hq]; exact hk2
        simp [dictSet, dictContains, hq, hq2, hk2]
    · by_cases hq2 : q.1 = k2
      · have hk2 : ¬ k = k2 := by rw [← hq2]; exact fun he => hq he.symm
        have hk2s : ¬ k2 = k := fun he => hk2 he.symm
        simp [dictSet, dictContains, hq, hq2, hk2, hk2s]
      · simp [dictSet, dictContains, hq, hq2, ih]

lemma dictGet_eq_none_of_not_contains (d : VulnMap) (k : String)
    (h : dictContains d k = false) : dictGet d k = none := by
  induction d with
  | nil => rfl
  | cons q rest ih =>
    by_cases hq : q.1 = k
    · simp [dictContains, hq] at h
    · simp only [dictContains, hq, if_neg] at h
      simp [dictGet, hq, ih h]

/-- The value the loop body ends the iteration with at the iteration's own
key: the previous ids extended with the safety ids, deduplicated. -/
lemma dictVals_mergeStep_self (m : VulnMap) (pv : String × List String) :
    dictVals (mergeStep m pv) pv.1 = ((dictVals m pv.1) ++ pv.2).dedup := by
  unfold mergeStep dictVals
  cases hc : dictContains m pv.1 with
  | true =>
    simp only [hc, if_true]
    rw [dictGet_dictSet_self]
    rfl
  | false =>
    simp only [Bool.false_eq_true, if_false]
    rw [dictGet_dictSet_self, dictGet_dictSet_self,
        dictGet_eq_none_of_not_contains m pv.1 hc]
    rfl

lemma dictGet_mergeStep_ne (m : VulnMap) (pv : String × List String)
    (k : String) (h : k ≠ pv.1) :
    dictGet (mergeStep m pv) k = dictGet m k := by
  unfold mergeStep
  cases hc : dictContains m pv.1 with
  | true =>
    simp only [hc, if_true]
    exact dictGet_dictSet_ne _ _ _ _ h
  | false =>
    simp only [Bool.false_eq_true, if_false]
    rw [dictGet_dictSet_ne _ _ _ _ h, dictGet_dictSet_ne _ _ _ _ h]

lemma dictContains_mergeStep (m : VulnMap) (pv : String × List String)
    (k : String) :
    dictContains (mergeStep m pv) k =
      (dictContains m k || decide (pv.1 = k)) := by
  unfold mergeStep
  cases hc : dictContains m pv.1 with
  | true =>
    simp only [hc, if_true]
    rw [dictContains_dictSet]
  | false =>
    simp only [Bool.false_eq_true, if_false]
    rw [dictContains_dictSet, dictContains_dictSet]
    cases hd : decide (pv.1 = k) <;> simp

lemma dictVals_mergeStep_mem (m : VulnMap) (pv : String × List String)
    (k x : String) (h : x ∈ dictVals m k) : x ∈ dictVals (mergeStep m pv) k := by
  by_cases hk : k = pv.1
  · subst hk
    rw [dictVals_mergeStep_self]
    exact List.mem_dedup.mpr (List.mem_append_left _ h)
  · unfold dictVals
    rw [dictGet_mergeStep_ne m pv k hk]
    exact h

lemma merge_vuln_mem_of_mem_audit (a s : VulnMap) (k x : String)
    (h : x ∈ dictVals a k) : x ∈ dictVals (merge_vulnerabilities a s) k := by
  induction s generalizing a with
  | nil => exact h
  | cons pv rest ih =>
    exact ih (mergeStep a pv) (dictVals_mergeStep_mem a pv k x h)

lemma merge_vuln_get_of_not_in_safety (a s : VulnMap) (k : String)
    (h : dictContains s k = false) :
    dictGet (merge_vulnerabilities a s) k = dictGet a k := by
  induction s generalizing a with
  | nil => rfl
  | cons pv rest ih =>
    by_cases hpv : pv.1 = k
    · simp [dictContains, hpv] at h
    · simp only [dictContains, hpv, if_neg] at h
      show dictGet (merge_vulnerabilities (mergeStep a pv) rest) k = _
      rw [ih (mergeStep a pv) h,
          dictGet_mergeStep_ne a pv k (fun he => hpv he.symm)]

lemma merge_vuln_contains (a s : VulnMap) (k : String) :
    dictContains (merge_vulnerabilities a s) k =
      (dictContains a k || dictContains s k) := by
  induction s generalizing a with
  | nil => simp [merge_vulnerabilities, dictContains]
  | cons pv rest ih =>
    show dictContains (merge_vulnerabilities (mergeStep a pv) rest) k = _
    rw [ih (mergeStep a pv), dictContains_mergeStep]
    by_cases hpv : pv.1 = k <;> simp [dictContains, hpv, Bool.or_assoc]

lemma merge_vuln_mem_of_mem_safety (a s : VulnMap) (k x : String) :
    ∀ v, (k, v) ∈ s → x ∈ v → x ∈ dictVals (merge_vulnerabilities a s) k := by
  induction s generalizing a with
  | nil => intro v hv; cases hv
  | cons pv rest ih =>
    intro v hv hx
    cases hv with
    | head =>
      refine merge_vuln_mem_of_mem_audit (mergeStep a (k, v)) rest k x ?_
      rw [show k = (k, v).1 from rfl, dictVals_mergeStep_self]
      exact List.mem_dedup.mpr (List.mem_append_right _ hx)
    | tail _ hmem => exact ih (mergeStep a pv) v hmem hx

lemma merge_vuln_nodup_of_in_safety (a s : VulnMap) (k : String)
    (h : dictContains s k = true) :
    (dictVals (merge_vulnerabilities a s) k).Nodup := by
  induction s generalizing a with
  | nil => cases h
  | cons pv rest ih =>
    by_cases hrest : dictContains rest k = true
    · exact ih (mergeStep a pv) hrest
    · have hrf : dictContains rest k = false := by
        cases h2 : dictContains rest k with
        | true => exact absurd h2 hrest
        | false => rfl
      have hpv : pv.1 = k := by
        by_contra hne
        simp [dictContains, hne, hrf] at h
      show (dictVals (merge_vulnerabilities (mergeStep a pv) rest) k).Nodup
      unfold dictVals
      rw [merge_vuln_get_of_not_in_safety (mergeStep a pv) rest k hrf]
      have := dictVals_mergeStep_self a pv
      rw [hpv] at this
      unfold dictVals at this
      rw [this]
      exact List.nodup_dedup _

/-! ## Claim theorems for the audit scripts -/

/-- C9.  `check_outdated` returns True on every possible stdout of
`pip list --outdated` (both branches of its `if` return True), so the
presence of outdated packages can never make the overall report status False
nor the process exit code nonzero: the status is exactly the conjunction of
the other checks (and the truthiness of the timestamp string), independent of
the outdated check's input. -/
theorem c9_outdated_never_fails_audit (stdout timestamp : String)
    (vulnOk licOk sbomOk : Bool) :
    check_outdated stdout = true ∧
    create_audit_report timestamp vulnOk licOk sbomOk stdout =
      (pyTruthyStr timestamp && vulnOk && licOk && sbomOk) ∧
    audit_exit_code (create_audit_report timestamp vulnOk licOk sbomOk stdout) =
      audit_exit_code (pyTruthyStr timestamp && vulnOk && licOk && sbomOk) := by
  have hout : check_outdated stdout = true := by
    unfold check_outdated
    split <;> rfl
  have hstatus : create_audit_report timestamp vulnOk licOk sbomOk stdout =
      (pyTruthyStr timestamp && vulnOk && licOk && sbomOk) := by
    unfold create_audit_report allResultsValues
    rw [hout]
    cases pyTruthyStr timestamp <;> cases vulnOk <;> cases licOk <;>
      cases sbomOk <;> rfl
  exact ⟨hout, hstatus, by rw [hstatus]⟩

/-- C10.  `merge_vulnerabilities` returns a map whose key set is the union of
the two inputs' key sets; the list recorded for a package contains every id
listed for it in either input; for every package that occurs in the safety
map the resulting list is duplicate-free; and a package not occurring in the
safety map keeps its pip-audit entry unchanged — duplicates included (the
last conjunct preserves the exact stored list, so a duplicated pip-audit
entry survives verbatim when safety does not mention the package). -/
theorem c10_merge_vulnerabilities_spec (audit_vulns safety_vulns : VulnMap)
    (k x : String) :
    (dictContains (merge_vulnerabilities audit_vulns safety_vulns) k =
      (dictContains audit_vulns k || dictContains safety_vulns k)) ∧
    (x ∈ dictVals audit_vulns k →
      x ∈ dictVals (merge_vulnerabilities audit_vulns safety_vulns) k) ∧
    (∀ v, (k, v) ∈ safety_vulns → x ∈ v →
      x ∈ dictVals (merge_vulnerabilities audit_vulns safety_vulns) k) ∧
    (dictContains safety_vulns k = true →
      (dictVals (merge_vulnerabilities audit_vulns safety_vulns) k).Nodup) ∧
    (dictContains safety_vulns k = false →
      dictGet (merge_vulnerabilities audit_vulns safety_vulns) k =
        dictGet audit_vulns k) :=
  ⟨merge_vuln_contains audit_vulns safety_vulns k,
   merge_vuln_mem_of_mem_audit audit_vulns safety_vulns k x,
   merge_vuln_mem_of_mem_safety audit_vulns safety_vulns k x,
   merge_vuln_nodup_of_in_safety audit_vulns safety_vulns k,
   merge_vuln_get_of_not_in_safety audit_vulns safety_vulns k⟩

/-- C10 witness: the merge theorem applied at concrete maps — the duplicated
pip-audit entry for pkga survives unchanged (safety does not list pkga), and
the id safety lists for pkgb is present in the merged map. -/
theorem c10_witness :
    dictGet (merge_vulnerabilities exAudit exSafety) "pkga" =
      dictGet exAudit "pkga" ∧
    "VULN-2" ∈ dictVals (merge_vulnerabilities exAudit exSafety) "pkgb" :=
  ⟨(c10_merge_vulnerabilities_spec exAudit exSafety "pkga" "x").2.2.2.2
      (by decide),
   (c10_merge_vulnerabilities_spec exAudit exSafety "pkgb" "VULN-2").2.2.1
      ["VULN-2", "VULN-2"] (by decide) (by decide)⟩

end MLAudit
